import Mathlib

/-!
Verification development for the QuantProto trading control plane.

The repository ships a React client (src/frontend/src/App.tsx) against a
FastAPI backend whose engine-core sources (PortfolioLedger, RiskGovernor,
AdvisorBridge, PerformanceRecorder, engine lifecycle) are not part of the
checked-in tree; those components are modelled here from spec.md, while the
client-side computations and declared response shapes are embedded directly
from App.tsx.  Monetary quantities are modelled as exact rationals.
-/

namespace QuantProto

/-- Trade direction of an order (spec section 3). -/
inductive Action where
  | BUY
  | SELL
deriving DecidableEq, Repr

/-- Origin of an order (spec section 3). -/
inductive Source where
  | MANUAL
  | ADVISOR
  | STOP_LOSS
deriving DecidableEq, Repr

/-- Modelled from the spec: the Order record of section 3 (the backend order
type is absent from src/).  `stop_loss` and `confidence` are optional. -/
structure Order where
  action : Action
  ticker : String
  shares : ℚ
  price : ℚ
  stop_loss : Option ℚ
  source : Source
  confidence : Option ℚ
deriving DecidableEq, Repr

/-- Modelled from the spec: the ValidationError taxonomy of section 7
(non-positive shares/price, missing ticker) together with the section 3
shape constraints (stop_loss is BUY-only, confidence is advisor-only). -/
inductive ValidationError where
  | MissingTicker
  | NonPositiveShares
  | NonPositivePrice
  | StopLossOnNonBuy
  | ConfidenceOnNonAdvisor
deriving DecidableEq, Repr

/-- Modelled from the spec: boundary validation of an incoming order
(spec sections 3, 7 and design note 9: a validated tagged-variant Order
enforced at the boundary before any gating logic runs). -/
def validateOrder (o : Order) : Except ValidationError Order :=
  if o.ticker = "" then .error .MissingTicker
  else if o.shares ≤ 0 then .error .NonPositiveShares
  else if o.price ≤ 0 then .error .NonPositivePrice
  else if o.stop_loss.isSome ∧ o.action ≠ .BUY then .error .StopLossOnNonBuy
  else if o.confidence.isSome ∧ o.source ≠ .ADVISOR then .error .ConfidenceOnNonAdvisor
  else .ok o

/-- Modelled from the spec: a held position (spec section 3). -/
structure Position where
  ticker : String
  shares : ℚ
  average_cost : ℚ
  stop_loss : Option ℚ
deriving DecidableEq, Repr

/-- Modelled from the spec: the LedgerError taxonomy of section 7. -/
inductive LedgerError where
  | InsufficientFunds
  | InsufficientShares
  | UnknownPosition
deriving DecidableEq, Repr

/-- Modelled from the spec: ExecutionResult (spec section 3): the order, a
success flag, the reason code of a ledger failure, the realized-P&L delta
(SELL only) and the resulting position snapshot. -/
structure ExecutionResult where
  order : Order
  success : Bool
  error : Option LedgerError
  realized_delta : Option ℚ
  position : Option Position
deriving DecidableEq, Repr

/-- Modelled from the spec: the Ledger record (spec section 3): cash, the
positions keyed by ticker, and cumulative realized P&L. -/
structure Ledger where
  cash : ℚ
  positions : List Position
  realized_pnl : ℚ
deriving DecidableEq, Repr

/-- Look a position up by ticker. -/
def Ledger.findPosition (l : Ledger) (t : String) : Option Position :=
  l.positions.find? (fun p => p.ticker = t)

/-- Modelled from the spec: `PortfolioLedger.apply` (spec section 4.1).
BUY fails with InsufficientFunds when cash < shares*price, otherwise debits
cash, recomputes the shares-weighted average cost, creates the position if
absent and overwrites stop_loss when supplied.  SELL fails with
UnknownPosition / InsufficientShares, otherwise credits cash, realizes
(price - average_cost)*shares, and deletes the position at zero shares.
Every failure leaves the ledger unchanged. -/
def Ledger.apply (l : Ledger) (o : Order) : Ledger × ExecutionResult :=
  match o.action with
  | .BUY =>
    if l.cash < o.shares * o.price then
      (l, ⟨o, false, some .InsufficientFunds, none, none⟩)
    else
      match l.findPosition o.ticker with
      | some p =>
        let ns := p.shares + o.shares
        let na := (p.shares * p.average_cost + o.shares * o.price) / ns
        let sl := match o.stop_loss with
          | some s => some s
          | none => p.stop_loss
        let p' : Position := ⟨p.ticker, ns, na, sl⟩
        let l' : Ledger :=
          ⟨l.cash - o.shares * o.price,
           l.positions.map (fun q => if q.ticker = o.ticker then p' else q),
           l.realized_pnl⟩
        (l', ⟨o, true, none, none, some p'⟩)
      | none =>
        let p' : Position := ⟨o.ticker, o.shares, o.price, o.stop_loss⟩
        let l' : Ledger :=
          ⟨l.cash - o.shares * o.price, l.positions ++ [p'], l.realized_pnl⟩
        (l', ⟨o, true, none, none, some p'⟩)
  | .SELL =>
    match l.findPosition o.ticker with
    | none => (l, ⟨o, false, some .UnknownPosition, none, none⟩)
    | some p =>
      if p.shares < o.shares then
        (l, ⟨o, false, some .InsufficientShares, none, none⟩)
      else
        let delta := (o.price - p.average_cost) * o.shares
        let ns := p.shares - o.shares
        if ns = 0 then
          let l' : Ledger :=
            ⟨l.cash + o.shares * o.price,
             l.positions.filter (fun q => q.ticker ≠ o.ticker),
             l.realized_pnl + delta⟩
          (l', ⟨o, true, none, some delta, none⟩)
        else
          let p' : Position := ⟨p.ticker, ns, p.average_cost, p.stop_loss⟩
          let l' : Ledger :=
            ⟨l.cash + o.shares * o.price,
             l.positions.map (fun q => if q.ticker = o.ticker then p' else q),
             l.realized_pnl + delta⟩
          (l', ⟨o, true, none, some delta, some p'⟩)

/-- Modelled from the spec: the two trading modes (spec section 3). -/
inductive TradingMode where
  | SIMULATED
  | LIVE
deriving DecidableEq, Repr

/-- Modelled from the spec: the RiskLimits record (spec section 3):
daily-trade cap, per-position currency cap, trading mode, the running
daily trade count and the halted flag. -/
structure RiskLimits where
  max_daily_trades : Nat
  max_position_size : ℚ
  trading_mode : TradingMode
  daily_trade_count : Nat
  halted : Bool
deriving DecidableEq, Repr

/-- Modelled from the spec: the RiskRejection reason codes (spec section 7). -/
inductive RiskReason where
  | EngineHalted
  | DailyLimitReached
  | PositionTooLarge
deriving DecidableEq, Repr

/-- Outcome of the risk gate. -/
inductive GateResult where
  | allow
  | reject (reason : RiskReason)
deriving DecidableEq, Repr

/-- Modelled from the spec: `RiskGovernor.gate` (spec section 4.2).
Evaluation order: (1) EngineHalted when the halted flag is set; (2) for
LIVE-mode, non-evaluate-only requests, DailyLimitReached when
daily_trade_count has reached max_daily_trades; (3) PositionTooLarge when
shares*price exceeds max_position_size; otherwise allow. -/
def gate (evaluateOnly : Bool) (rl : RiskLimits) (o : Order) : GateResult :=
  if rl.halted then .reject .EngineHalted
  else if rl.trading_mode = .LIVE ∧ evaluateOnly = false ∧
      rl.max_daily_trades ≤ rl.daily_trade_count then
    .reject .DailyLimitReached
  else if rl.max_position_size < o.shares * o.price then .reject .PositionTooLarge
  else .allow

/-- Modelled from the spec: the engine context (spec sections 3 and 5):
the run flag and the halted flag are independent axes; the risk limits and
the ledger are the shared mutable state behind the single-writer lock. -/
structure Engine where
  running : Bool
  limits : RiskLimits
  ledger : Ledger
deriving DecidableEq, Repr

/-- Modelled from the spec: `start()` (spec section 4.4); idempotent, does
not touch the halted flag. -/
def Engine.start (e : Engine) : Engine := { e with running := true }

/-- Modelled from the spec: `stop()` (spec section 4.4); idempotent, does
not touch the halted flag. -/
def Engine.stop (e : Engine) : Engine := { e with running := false }

/-- Modelled from the spec: `emergency_stop()` (spec section 4.2) sets the
halted flag synchronously. -/
def Engine.emergencyStop (e : Engine) : Engine :=
  { e with limits := { e.limits with halted := true } }

/-- Modelled from the spec: `resume_from_halt()` (spec section 4.2) clears
the halted flag. -/
def Engine.resumeFromHalt (e : Engine) : Engine :=
  { e with limits := { e.limits with halted := false } }

/-- A run-state transition: one of the two lifecycle calls of spec
section 4.4. -/
inductive RunOp where
  | start
  | stop
deriving DecidableEq, Repr

/-- Apply a sequence of start/stop lifecycle calls. -/
def Engine.applyRunOps (e : Engine) (ops : List RunOp) : Engine :=
  match ops with
  | [] => e
  | .start :: rest => (e.start).applyRunOps rest
  | .stop :: rest => (e.stop).applyRunOps rest

/-- Per-trade result, the shape shared by live execution and dry-run
simulation (spec sections 4.5 and 7): the order, the success flag, the
risk-rejection reason code if gated out, the ledger reason code if the
ledger refused it, and whether the result is simulated. -/
structure TradeResult where
  order : Order
  success : Bool
  rejection : Option RiskReason
  ledger_error : Option LedgerError
  simulated : Bool
deriving DecidableEq, Repr

/-- Modelled from the spec: one Governor-gated, Ledger-applied live order
(the TradeExecutor funnel, spec sections 2 and 4.4); daily_trade_count
increments only for counted (LIVE, non-evaluate-only) executions
(spec sections 3 and 8). -/
def Engine.execOrder (e : Engine) (o : Order) : Engine × TradeResult :=
  match gate false e.limits o with
  | .reject r => (e, ⟨o, false, some r, none, false⟩)
  | .allow =>
    let lr := e.ledger.apply o
    let limits' :=
      if lr.2.success ∧ e.limits.trading_mode = .LIVE then
        { e.limits with daily_trade_count := e.limits.daily_trade_count + 1 }
      else e.limits
    ({ e with ledger := lr.1, limits := limits' },
     ⟨o, lr.2.success, none, lr.2.error, false⟩)

/-- Modelled from the spec: `submit_manual_order` (spec section 6):
boundary validation first (spec section 7), then gate and ledger. -/
def Engine.submitManualOrder (e : Engine) (o : Order) :
    Engine × Except ValidationError TradeResult :=
  match validateOrder o with
  | .error v => (e, .error v)
  | .ok o' =>
    let er := e.execOrder o'
    (er.1, .ok er.2)

/-- Modelled from the spec: an advisory proposal batch (spec section 4.5):
an ordered list of proposed orders plus the dry-run flag. -/
structure Proposal where
  proposed_trades : List Order
  dry_run : Bool
deriving DecidableEq, Repr

/-- Modelled from the spec: the BatchReport record (spec section 4.5):
total, successful, failed, execution_rate = successful/total, and the
per-trade results in submission order. -/
structure BatchReport where
  total : Nat
  successful : Nat
  failed : Nat
  execution_rate : ℚ
  results : List TradeResult
deriving DecidableEq, Repr

/-- Assemble a BatchReport from per-trade results (spec section 4.5). -/
def mkReport (results : List TradeResult) : BatchReport :=
  let succ := (results.filter (fun r => r.success)).length
  let fail := (results.filter (fun r => !r.success)).length
  ⟨results.length, succ, fail, (succ : ℚ) / (results.length : ℚ), results⟩

/-- Modelled from the spec: live sequential execution of a batch (spec
section 4.5): trades execute in proposal order, each independently; a
rejection or ledger failure on one trade is recorded and execution
proceeds to the next. -/
def Engine.runBatch (e : Engine) (os : List Order) : Engine × List TradeResult :=
  match os with
  | [] => (e, [])
  | o :: rest =>
    let er := e.execOrder o
    let tail := er.1.runBatch rest
    (tail.1, er.2 :: tail.2)

/-- Modelled from the spec: `AdvisorBridge.submit_batch` (spec section 4.5).
With dry_run = true every proposed order goes through the Governor in
evaluate-only mode, no Ledger mutation occurs, and every per-trade result
is marked simulated; with dry_run = false the trades execute sequentially
in proposal order. -/
def Engine.submitBatch (e : Engine) (p : Proposal) : Engine × BatchReport :=
  if p.dry_run then
    let results := p.proposed_trades.map (fun o =>
      match gate true e.limits o with
      | .reject r => (⟨o, false, some r, none, true⟩ : TradeResult)
      | .allow => (⟨o, true, none, none, true⟩ : TradeResult))
    (e, mkReport results)
  else
    let er := e.runBatch p.proposed_trades
    (er.1, mkReport er.2)

/-- A quote table: the external quote source of spec section 6, exposing
`latest(ticker) = price or absent`. -/
def Quotes : Type := List (String × ℚ)

/-- Look up the latest quoted price for a ticker. -/
def Quotes.latest (qs : Quotes) (t : String) : Option ℚ :=
  (List.find? (fun e => e.1 = t) qs).map (fun e => e.2)

/-- Modelled from the spec: the per-position view produced by
`value(quotes)` (spec section 4.1): current_value, unrealized_pnl and
pnl_percent, all absent when the ticker has no quote entry. -/
structure PositionView where
  ticker : String
  shares : ℚ
  average_cost : ℚ
  current_value : Option ℚ
  unrealized_pnl : Option ℚ
  pnl_percent : Option ℚ
deriving DecidableEq, Repr

/-- Modelled from the spec: the view of one position under a quote table
(spec section 4.1); a position whose ticker has no entry in the quotes
reports all three valuation fields as absent, not zero. -/
def positionView (qs : Quotes) (p : Position) : PositionView :=
  match qs.latest p.ticker with
  | none => ⟨p.ticker, p.shares, p.average_cost, none, none, none⟩
  | some price =>
    ⟨p.ticker, p.shares, p.average_cost,
     some (price * p.shares),
     some ((price - p.average_cost) * p.shares),
     some ((price - p.average_cost) / p.average_cost * 100)⟩

/-- Modelled from the spec: `value(quotes)` / `portfolio_summary(quotes)`
(spec sections 4.1 and 6): the ordered list of per-position views. -/
def Ledger.value (l : Ledger) (qs : Quotes) : List PositionView :=
  l.positions.map (positionView qs)

/-- Modelled from the spec: the portfolio value entering a snapshot, the
sum of the available per-position current values (spec section 4.6). -/
def Ledger.portfolioValue (l : Ledger) (qs : Quotes) : ℚ :=
  ((l.value qs).map (fun v => v.current_value.getD 0)).sum

/-- Modelled from the spec: the DailyPerformanceRecord (spec section 3):
date (unique key), total_equity, cash, portfolio_value.  Dates are
modelled as day ordinals. -/
structure DailyRecord where
  date : Nat
  total_equity : ℚ
  cash : ℚ
  portfolio_value : ℚ
deriving DecidableEq, Repr

/-- Modelled from the spec: the record `snapshot` computes for a date
(spec section 4.6): total_equity = cash + the summed current values. -/
def mkDailyRecord (date : Nat) (l : Ledger) (qs : Quotes) : DailyRecord :=
  ⟨date, l.cash + l.portfolioValue qs, l.cash, l.portfolioValue qs⟩

/-- Modelled from the spec: `PerformanceRecorder.snapshot` (spec
section 4.6): stores one record keyed by date; a repeated call for the
same date overwrites rather than duplicating (upsert, not append). -/
def snapshot (store : List DailyRecord) (date : Nat) (l : Ledger) (qs : Quotes) :
    List DailyRecord :=
  let r := mkDailyRecord date l qs
  if store.any (fun s => s.date = date) then
    store.map (fun s => if s.date = date then r else s)
  else
    store ++ [r]

/-- Most-recent-first order on daily records: the record with the later
date comes first. -/
def moreRecent (a b : DailyRecord) : Prop := b.date ≤ a.date

instance : DecidableRel moreRecent := fun a b => Nat.decLe b.date a.date

instance : IsTotal DailyRecord moreRecent :=
  ⟨fun a b => Nat.le_total b.date a.date⟩

instance : IsTrans DailyRecord moreRecent :=
  ⟨fun _ _ _ hab hbc => Nat.le_trans hbc hab⟩

/-- Modelled from the spec: `daily_performance(limit)` (spec section 6):
the most-recent-first list of daily records, truncated to `limit`. -/
def dailyPerformance (store : List DailyRecord) (limit : Nat) : List DailyRecord :=
  (List.insertionSort moreRecent store).take limit

/-- The `PortfolioSummary` row the client declares for the
/portfolio/summary response (App.tsx lines 6-16); `number | null` fields
are options. -/
structure PortfolioSummary where
  ticker : String
  shares : ℚ
  current_price : Option ℚ
  current_value : Option ℚ
  buy_price : ℚ
  cost_basis : ℚ
  pnl : Option ℚ
  pnl_percent : Option ℚ
  stop_loss : Option ℚ
deriving DecidableEq, Repr

/-- The client's portfolio value: `portfolio.reduce((sum, pos) => sum +
(pos.current_value || 0), 0)` (App.tsx lines 187 and 556); a null
current_value contributes 0. -/
def clientPortfolioValue (portfolio : List PortfolioSummary) : ℚ :=
  portfolio.foldl (fun sum pos => sum + pos.current_value.getD 0) 0

/-- The client's total equity: `setTotalEquity(cashBalance +
portfolioValue)` (App.tsx lines 186-189). -/
def clientTotalEquity (cashBalance : ℚ) (portfolio : List PortfolioSummary) : ℚ :=
  cashBalance + clientPortfolioValue portfolio

/-- The market-hours window of the status payload (App.tsx lines 21-24). -/
structure MarketHours where
  start : String
  «end» : String
deriving DecidableEq, Repr

/-- The `TradingEngineStatus` record the client declares for the
/trading/engine/status response (App.tsx lines 18-26); `cached_portfolio`
is typed `any` there and is modelled opaquely as a string payload. -/
structure TradingEngineStatus where
  is_running : Bool
  check_interval : ℚ
  market_hours : MarketHours
  cached_portfolio : Option String
deriving DecidableEq, Repr

/-- The field names of `TradingEngineStatus`, in declaration order
(App.tsx lines 18-26). -/
def tradingEngineStatusFields : List String :=
  ["is_running", "check_interval", "market_hours", "cached_portfolio"]

/-- The field names of the `TradingSettings` record the client declares
for the /trading/settings response, in declaration order (App.tsx lines
28-36). -/
def tradingSettingsFields : List String :=
  ["llm_auto_trading", "stop_loss_monitoring", "max_daily_trades",
   "max_position_size", "trading_mode", "daily_trade_count",
   "daily_limit_reached"]

/-- The status field set named by the spec (spec section 6:
`status() -> {engine_state, halted, mode, check_interval, market_hours}`),
written down for comparison with the declared client shape. -/
def specStatusFields : List String :=
  ["engine_state", "halted", "mode", "check_interval", "market_hours"]

/-- The shares held in a ledger for a ticker (0 when no position). -/
def Ledger.heldShares (l : Ledger) (t : String) : ℚ :=
  ((l.findPosition t).map Position.shares).getD 0

/-- The average cost recorded in a ledger for a ticker (0 when no
position). -/
def Ledger.heldAvgCost (l : Ledger) (t : String) : ℚ :=
  ((l.findPosition t).map Position.average_cost).getD 0

/-- Concrete input: first BUY of the spec's worked example, 10 shares at
price 100. -/
def c1Order1 : Order := ⟨.BUY, "AAA", 10, 100, none, .MANUAL, none⟩

/-- Concrete input: second BUY of the spec's worked example, 10 shares at
price 200. -/
def c1Order2 : Order := ⟨.BUY, "AAA", 10, 200, none, .MANUAL, none⟩

/-- Concrete input: the ledger after applying the first worked-example BUY
to a fresh ledger holding 10000 cash. -/
def c1Ledger1 : Ledger := (Ledger.apply ⟨10000, [], 0⟩ c1Order1).1

/-- Concrete input: a running, un-halted engine in LIVE mode. -/
def c2Engine : Engine := ⟨true, ⟨10, 1000000, .LIVE, 0, false⟩, ⟨1000, [], 0⟩⟩

/-- Concrete input: a valid manual BUY order. -/
def c2Order : Order := ⟨.BUY, "AAA", 2, 50, none, .MANUAL, none⟩

/-- Concrete input: a stopped, un-halted engine in SIMULATED mode holding
one position. -/
def c3Engine : Engine :=
  ⟨false, ⟨10, 1000000, .SIMULATED, 3, false⟩,
   ⟨500, [⟨"AAA", 10, 100, none⟩], 7⟩⟩

/-- Concrete input: a dry-run advisory proposal of two trades. -/
def c3Proposal : Proposal :=
  ⟨[⟨.BUY, "BBB", 2, 100, none, .ADVISOR, some (4/5)⟩,
    ⟨.SELL, "AAA", 5, 120, none, .ADVISOR, some (1/2)⟩], true⟩

/-- Concrete input: an un-halted SIMULATED engine with 1000 cash. -/
def c4Engine : Engine := ⟨true, ⟨10, 1000000, .SIMULATED, 0, false⟩, ⟨1000, [], 0⟩⟩

/-- Concrete input: a live advisory batch of three BUY trades whose second
trade costs more than the remaining cash. -/
def c4Proposal : Proposal :=
  ⟨[⟨.BUY, "AAA", 1, 100, none, .ADVISOR, some (9/10)⟩,
    ⟨.BUY, "BBB", 10, 500, none, .ADVISOR, some (3/5)⟩,
    ⟨.BUY, "CCC", 1, 100, none, .ADVISOR, some (7/10)⟩], false⟩

/-- Concrete input: a ledger holding two positions. -/
def c5Ledger : Ledger :=
  ⟨250, [⟨"AAA", 10, 100, some 90⟩, ⟨"BBB", 4, 50, none⟩], 0⟩

/-- Concrete input: a quote table quoting only the second position's
ticker. -/
def c5Quotes : Quotes := [("BBB", 60)]

/-- Concrete input: a performance store holding one record for day 5. -/
def c6Store : List DailyRecord := [⟨5, 1100, 100, 1000⟩]

/-- Concrete input: the ledger of the earlier same-day snapshot call. -/
def c6Ledger1 : Ledger := ⟨100, [⟨"AAA", 10, 100, none⟩], 0⟩

/-- Concrete input: the ledger of the later same-day snapshot call. -/
def c6Ledger2 : Ledger := ⟨300, [⟨"AAA", 8, 100, none⟩], 40⟩

/-- Concrete input: the quote table used by both snapshot calls. -/
def c6Quotes : Quotes := [("AAA", 110)]

/-- Concrete input: an unsorted performance store over three dates. -/
def c8Store : List DailyRecord :=
  [⟨3, 1000, 100, 900⟩, ⟨7, 1200, 200, 1000⟩, ⟨5, 1100, 150, 950⟩]

/-- Concrete input: a valid advisor BUY order carrying a stop loss and a
confidence. -/
def c9Order : Order := ⟨.BUY, "AAA", 3, 100, some 90, .ADVISOR, some (4/5)⟩

/-- Concrete input: client portfolio rows, the middle one lacking a
quote-derived current value. -/
def c10RowA : PortfolioSummary :=
  ⟨"AAA", 10, some 110, some 1100, 100, 1000, some 100, some 10, none⟩

/-- Concrete input: a client portfolio row with no quote, so
current_value, pnl and pnl_percent are all null. -/
def c10RowB : PortfolioSummary :=
  ⟨"BBB", 4, none, none, 50, 200, none, none, some 45⟩

/-- Concrete input: a third client portfolio row with a quote. -/
def c10RowC : PortfolioSummary :=
  ⟨"CCC", 2, some 30, some 60, 25, 50, some 10, some 20, none⟩

/-- Replacing the first hit of a ticker search by a record with the same
ticker is still found first after the positionwise update. -/
lemma find?_map_update (ps : List Position) (t : String) (p p' : Position)
    (h : ps.find? (fun q => q.ticker = t) = some p) (hp' : p'.ticker = t) :
    (ps.map (fun q => if q.ticker = t then p' else q)).find?
      (fun q => q.ticker = t) = some p' := by
  induction ps with
  | nil => simp at h
  | cons a rest ih =>
    by_cases ha : a.ticker = t
    · rw [List.map_cons, if_pos ha]
      exact List.find?_cons_of_pos _ (by simp [hp'])
    · rw [List.find?_cons_of_neg _ (by simp [ha])] at h
      rw [List.map_cons, if_neg ha, List.find?_cons_of_neg _ (by simp [ha])]
      exact ih h

/-- C1: a BUY applied with sufficient cash leaves the ticker's position
holding old_shares + shares shares at the shares-weighted mean cost
(old_shares*old_avg + shares*price) / (old_shares + shares). -/
theorem buy_sets_weighted_average_cost (l : Ledger) (o : Order)
    (hbuy : o.action = .BUY) (hsh : 0 < o.shares)
    (hcash : o.shares * o.price ≤ l.cash) :
    ∃ p' : Position,
      (l.apply o).1.findPosition o.ticker = some p' ∧
      p'.shares = l.heldShares o.ticker + o.shares ∧
      p'.average_cost =
        (l.heldShares o.ticker * l.heldAvgCost o.ticker + o.shares * o.price) /
          (l.heldShares o.ticker + o.shares) := by
  rcases hf : l.findPosition o.ticker with _ | p
  · have happ : (l.apply o).1 =
        ⟨l.cash - o.shares * o.price,
         l.positions ++ [⟨o.ticker, o.shares, o.price, o.stop_loss⟩],
         l.realized_pnl⟩ := by
      unfold Ledger.apply
      rw [hbuy, if_neg (not_lt.mpr hcash), hf]
    refine ⟨⟨o.ticker, o.shares, o.price, o.stop_loss⟩, ?_, ?_, ?_⟩
    · rw [happ]
      unfold Ledger.findPosition at hf ⊢
      rw [List.find?_append, hf]
      simp
    · simp [Ledger.heldShares, hf]
    · have h0 : l.heldShares o.ticker = 0 := by simp [Ledger.heldShares, hf]
      have h0a : l.heldAvgCost o.ticker = 0 := by simp [Ledger.heldAvgCost, hf]
      rw [h0, h0a, zero_mul, zero_add, zero_add]
      exact (mul_div_cancel_left₀ o.price (ne_of_gt hsh)).symm
  · have hpt : p.ticker = o.ticker := by
      have hf' := hf
      unfold Ledger.findPosition at hf'
      have hd := List.find?_some hf'
      simp only [decide_eq_true_eq] at hd
      exact hd
    refine ⟨⟨p.ticker, p.shares + o.shares,
      (p.shares * p.average_cost + o.shares * o.price) / (p.shares + o.shares),
      match o.stop_loss with
      | some s => some s
      | none => p.stop_loss⟩, ?_, ?_, ?_⟩
    · have happ : (l.apply o).1 =
          ⟨l.cash - o.shares * o.price,
           l.positions.map (fun q => if q.ticker = o.ticker then
             ⟨p.ticker, p.shares + o.shares,
              (p.shares * p.average_cost + o.shares * o.price) /
                (p.shares + o.shares),
              match o.stop_loss with
              | some s => some s
              | none => p.stop_loss⟩ else q),
           l.realized_pnl⟩ := by
        unfold Ledger.apply
        rw [hbuy, if_neg (not_lt.mpr hcash), hf]
      rw [happ]
      unfold Ledger.findPosition at hf ⊢
      exact find?_map_update l.positions o.ticker p _ hf hpt
    · simp [Ledger.heldShares, hf]
    · simp [Ledger.heldShares, Ledger.heldAvgCost, hf]

/-- C1 witness: the worked example BUY 10@100 then BUY 10@200 satisfies
the hypotheses and yields average_cost 150 and shares 20. -/
theorem buy_sets_weighted_average_cost_witness :
    (c1Order2.action = .BUY ∧ 0 < c1Order2.shares ∧
      c1Order2.shares * c1Order2.price ≤ c1Ledger1.cash) ∧
    (∃ p' : Position,
      (c1Ledger1.apply c1Order2).1.findPosition c1Order2.ticker = some p' ∧
      p'.shares = c1Ledger1.heldShares c1Order2.ticker + c1Order2.shares ∧
      p'.average_cost =
        (c1Ledger1.heldShares c1Order2.ticker *
            c1Ledger1.heldAvgCost c1Order2.ticker +
          c1Order2.shares * c1Order2.price) /
          (c1Ledger1.heldShares c1Order2.ticker + c1Order2.shares)) ∧
    (c1Ledger1.apply c1Order2).1.findPosition "AAA" =
      some ⟨"AAA", 20, 150, none⟩ :=
  ⟨⟨rfl, by norm_num [c1Order2],
    by norm_num [c1Order2, c1Ledger1, c1Order1, Ledger.apply,
      Ledger.findPosition, List.find?]⟩,
   buy_sets_weighted_average_cost c1Ledger1 c1Order2 rfl
     (by norm_num [c1Order2])
     (by norm_num [c1Order2, c1Ledger1, c1Order1, Ledger.apply,
       Ledger.findPosition, List.find?]),
   by norm_num [c1Ledger1, c1Order1, c1Order2, Ledger.apply,
     Ledger.findPosition, List.find?]⟩

/-- Lifecycle start/stop calls never touch the risk limits, in particular
not the halted flag. -/
lemma limits_applyRunOps (ops : List RunOp) (e : Engine) :
    (e.applyRunOps ops).limits = e.limits := by
  induction ops generalizing e with
  | nil => rfl
  | cons op rest ih => cases op <;> exact ih _

/-- A halted governor rejects every order with EngineHalted, in plain and
in evaluate-only mode. -/
lemma gate_halted (eo : Bool) (rl : RiskLimits) (o : Order)
    (h : rl.halted = true) : gate eo rl o = .reject .EngineHalted := by
  simp [gate, h]

/-- A halted engine leaves the executor without any state change and with
an EngineHalted rejection. -/
lemma execOrder_halted (e : Engine) (o : Order) (h : e.limits.halted = true) :
    e.execOrder o = (e, ⟨o, false, some .EngineHalted, none, false⟩) := by
  unfold Engine.execOrder
  rw [gate_halted false e.limits o h]

/-- A halted engine turns a whole live batch into EngineHalted rejections
without any state change. -/
lemma runBatch_halted (e : Engine) (os : List Order) (h : e.limits.halted = true) :
    e.runBatch os =
      (e, os.map (fun o => ⟨o, false, some .EngineHalted, none, false⟩)) := by
  induction os with
  | nil => rfl
  | cons o rest ih =>
    unfold Engine.runBatch
    rw [execOrder_halted e o h]
    simp [ih]

/-- The report built from per-trade results carries exactly those
results. -/
lemma mkReport_results (rs : List TradeResult) : (mkReport rs).results = rs := rfl

/-- C2: after emergency_stop, every order submission (manual or advisor
batch) is rejected with EngineHalted no matter which start/stop lifecycle
calls follow, and only resume_from_halt clears the flag, after which the
gate never answers EngineHalted. -/
theorem emergency_stop_rejects_until_resume
    (e : Engine) (ops : List RunOp) (o : Order)
    (hv : validateOrder o = .ok o) :
    ((e.emergencyStop).applyRunOps ops).limits.halted = true ∧
    (((e.emergencyStop).applyRunOps ops).submitManualOrder o).2 =
      .ok ⟨o, false, some .EngineHalted, none, false⟩ ∧
    (∀ p : Proposal,
      ∀ r ∈ (((e.emergencyStop).applyRunOps ops).submitBatch p).2.results,
        r.success = false ∧ r.rejection = some .EngineHalted) ∧
    (((e.emergencyStop).applyRunOps ops).resumeFromHalt).limits.halted = false ∧
    (∀ o2 : Order,
      gate false ((((e.emergencyStop).applyRunOps ops).resumeFromHalt).limits) o2 ≠
        .reject .EngineHalted) := by
  have hh : ((e.emergencyStop).applyRunOps ops).limits.halted = true := by
    rw [limits_applyRunOps]
    rfl
  refine ⟨hh, ?_, ?_, ?_, ?_⟩
  · simp only [Engine.submitManualOrder, hv, execOrder_halted _ o hh]
  · intro p r hr
    by_cases hd : p.dry_run
    · unfold Engine.submitBatch at hr
      rw [if_pos hd, mkReport_results] at hr
      rcases List.mem_map.mp hr with ⟨o2, _, ho2⟩
      rw [gate_halted true _ o2 hh] at ho2
      rw [← ho2]
      exact ⟨rfl, rfl⟩
    · unfold Engine.submitBatch at hr
      rw [if_neg hd, runBatch_halted _ _ hh, mkReport_results] at hr
      rcases List.mem_map.mp hr with ⟨o2, _, ho2⟩
      rw [← ho2]
      exact ⟨rfl, rfl⟩
  · simp [Engine.resumeFromHalt]
  · intro o2
    have hnh : (((e.emergencyStop).applyRunOps ops).resumeFromHalt).limits.halted
        = false := by simp [Engine.resumeFromHalt]
    unfold gate
    rw [hnh]
    simp only [Bool.false_eq_true, if_false]
    split
    · simp
    · split <;> simp

/-- C2 witness: a concrete running LIVE engine, emergency-stopped and then
restarted, still rejects a concrete valid manual order with EngineHalted
until resumed. -/
theorem emergency_stop_rejects_until_resume_witness :
    validateOrder c2Order = .ok c2Order ∧
    ((c2Engine.emergencyStop).applyRunOps [.stop, .start]).limits.halted = true ∧
    (((c2Engine.emergencyStop).applyRunOps [.stop, .start]).submitManualOrder
        c2Order).2 = .ok ⟨c2Order, false, some .EngineHalted, none, false⟩ ∧
    (((c2Engine.emergencyStop).applyRunOps [.stop, .start]).resumeFromHalt).limits.halted
      = false :=
  have hv : validateOrder c2Order = .ok c2Order := by
    unfold validateOrder c2Order
    rw [if_neg (by decide), if_neg (by norm_num), if_neg (by norm_num),
      if_neg (by decide), if_neg (by decide)]
  have h := emergency_stop_rejects_until_resume c2Engine [.stop, .start] c2Order hv
  ⟨hv, h.1, h.2.1, h.2.2.2.1⟩

/-- C3: a dry-run batch mutates nothing: the engine state (cash, every
position, realized P&L, daily trade count) is unchanged, one result is
reported per proposed trade, every result is marked simulated, and each
result's success mirrors the evaluate-only gate verdict on its order. -/
theorem dry_run_batch_is_pure (e : Engine) (p : Proposal)
    (hd : p.dry_run = true) :
    (e.submitBatch p).1 = e ∧
    (e.submitBatch p).1.ledger.cash = e.ledger.cash ∧
    (e.submitBatch p).1.ledger.positions = e.ledger.positions ∧
    (e.submitBatch p).1.ledger.realized_pnl = e.ledger.realized_pnl ∧
    (e.submitBatch p).1.limits.daily_trade_count = e.limits.daily_trade_count ∧
    (e.submitBatch p).2.results.length = p.proposed_trades.length ∧
    (∀ r ∈ (e.submitBatch p).2.results,
      r.simulated = true ∧
      (r.success = true ↔ gate true e.limits r.order = .allow)) := by
  have h1 : (e.submitBatch p).1 = e := by
    unfold Engine.submitBatch
    rw [if_pos hd]
  refine ⟨h1, by rw [h1], by rw [h1], by rw [h1], by rw [h1], ?_, ?_⟩
  · unfold Engine.submitBatch
    rw [if_pos hd, mkReport_results, List.length_map]
  · intro r hr
    unfold Engine.submitBatch at hr
    rw [if_pos hd, mkReport_results] at hr
    rcases List.mem_map.mp hr with ⟨o2, _, ho2⟩
    rcases hg : gate true e.limits o2 with _ | rr <;> rw [hg] at ho2 <;>
      subst ho2 <;> simp [hg]

/-- C3 witness: the concrete dry-run proposal on the concrete engine
leaves the engine untouched and reports two simulated results. -/
theorem dry_run_batch_is_pure_witness :
    c3Proposal.dry_run = true ∧
    (c3Engine.submitBatch c3Proposal).1 = c3Engine ∧
    (c3Engine.submitBatch c3Proposal).2.results.length =
      c3Proposal.proposed_trades.length ∧
    (∀ r ∈ (c3Engine.submitBatch c3Proposal).2.results, r.simulated = true) :=
  have h := dry_run_batch_is_pure c3Engine c3Proposal rfl
  ⟨rfl, h.1, h.2.2.2.2.2.1, fun r hr => (h.2.2.2.2.2.2 r hr).1⟩

/-- A live batch reports exactly one result per submitted trade. -/
lemma runBatch_length (e : Engine) (os : List Order) :
    (e.runBatch os).2.length = os.length := by
  induction os generalizing e with
  | nil => rfl
  | cons o rest ih =>
    unfold Engine.runBatch
    simp [ih]

/-- The report's total is the number of per-trade results. -/
lemma mkReport_total (rs : List TradeResult) : (mkReport rs).total = rs.length := rfl

/-- The report's successful count is the number of successful results. -/
lemma mkReport_successful (rs : List TradeResult) :
    (mkReport rs).successful = (rs.filter (fun r => r.success)).length := rfl

/-- The report's failed count is the number of unsuccessful results. -/
lemma mkReport_failed (rs : List TradeResult) :
    (mkReport rs).failed = (rs.filter (fun r => !r.success)).length := rfl

/-- C4: every batch report over a nonempty proposal satisfies
total = successful + failed, execution_rate = successful / total, a
fraction between 0 and 1, with one result per submitted trade in
submission order. -/
theorem batch_report_partition_and_rate (e : Engine) (p : Proposal)
    (hne : p.proposed_trades ≠ []) :
    (e.submitBatch p).2.total = p.proposed_trades.length ∧
    (e.submitBatch p).2.results.length = (e.submitBatch p).2.total ∧
    (e.submitBatch p).2.total =
      (e.submitBatch p).2.successful + (e.submitBatch p).2.failed ∧
    (e.submitBatch p).2.execution_rate =
      ((e.submitBatch p).2.successful : ℚ) / ((e.submitBatch p).2.total : ℚ) ∧
    0 ≤ (e.submitBatch p).2.execution_rate ∧
    (e.submitBatch p).2.execution_rate ≤ 1 := by
  have key : ∃ rs : List TradeResult,
      (e.submitBatch p).2 = mkReport rs ∧
      rs.length = p.proposed_trades.length := by
    unfold Engine.submitBatch
    by_cases hd : p.dry_run
    · rw [if_pos hd]
      exact ⟨_, rfl, List.length_map _ _⟩
    · rw [if_neg hd]
      exact ⟨_, rfl, runBatch_length e _⟩
  rcases key with ⟨rs, hrep, hlen⟩
  rw [hrep]
  have hpos : 0 < rs.length := by
    rw [hlen]
    exact List.length_pos.mpr hne
  have hposq : (0 : ℚ) < (rs.length : ℚ) := by exact_mod_cast hpos
  have hsle : (((rs.filter (fun r => r.success)).length : ℚ)) ≤ (rs.length : ℚ) := by
    exact_mod_cast List.length_filter_le (fun r => r.success) rs
  refine ⟨by rw [mkReport_total, hlen], rfl, ?_, rfl, ?_, ?_⟩
  · rw [mkReport_total, mkReport_successful, mkReport_failed]
    exact @List.length_eq_length_filter_add TradeResult rs (fun r => r.success)
  · show (0 : ℚ) ≤ ((rs.filter (fun r => r.success)).length : ℚ) / (rs.length : ℚ)
    exact div_nonneg (Nat.cast_nonneg _) (Nat.cast_nonneg _)
  · show ((rs.filter (fun r => r.success)).length : ℚ) / (rs.length : ℚ) ≤ 1
    exact (div_le_one hposq).mpr hsle

/-- The two trading modes are distinct. -/
lemma tmodeDiff : ¬ (TradingMode.SIMULATED = TradingMode.LIVE) := by decide

/-- Ticker disequality used to evaluate concrete ledgers. -/
lemma strAB : ¬(("AAA" : String) = "BBB") := by decide

/-- Ticker disequality used to evaluate concrete ledgers. -/
lemma strAC : ¬(("AAA" : String) = "CCC") := by decide

/-- Ticker disequality used to evaluate concrete ledgers. -/
lemma strBC : ¬(("BBB" : String) = "CCC") := by decide

/-- Ticker disequality used to evaluate concrete ledgers. -/
lemma strBA : ¬(("BBB" : String) = "AAA") := by decide

/-- Ticker disequality used to evaluate concrete ledgers. -/
lemma strCA : ¬(("CCC" : String) = "AAA") := by decide

/-- Ticker disequality used to evaluate concrete ledgers. -/
lemma strCB : ¬(("CCC" : String) = "BBB") := by decide

/-- C4 witness: the concrete three-trade batch whose second trade runs out
of cash reports total 3, successful 2, failed 1, execution_rate 2/3, and
its third trade still executed after the second failed. -/
theorem batch_report_partition_and_rate_witness :
    c4Proposal.proposed_trades ≠ [] ∧
    ((c4Engine.submitBatch c4Proposal).2.total = 3 ∧
     (c4Engine.submitBatch c4Proposal).2.successful = 2 ∧
     (c4Engine.submitBatch c4Proposal).2.failed = 1 ∧
     (c4Engine.submitBatch c4Proposal).2.execution_rate = 2 / 3 ∧
     (c4Engine.submitBatch c4Proposal).2.results.map (fun r => r.success) =
       [true, false, true] ∧
     (c4Engine.submitBatch c4Proposal).2.results.map (fun r => r.ledger_error) =
       [none, some .InsufficientFunds, none]) ∧
    ((c4Engine.submitBatch c4Proposal).2.total =
      c4Proposal.proposed_trades.length ∧
     (c4Engine.submitBatch c4Proposal).2.results.length =
      (c4Engine.submitBatch c4Proposal).2.total ∧
     (c4Engine.submitBatch c4Proposal).2.total =
      (c4Engine.submitBatch c4Proposal).2.successful +
        (c4Engine.submitBatch c4Proposal).2.failed ∧
     (c4Engine.submitBatch c4Proposal).2.execution_rate =
      ((c4Engine.submitBatch c4Proposal).2.successful : ℚ) /
        ((c4Engine.submitBatch c4Proposal).2.total : ℚ) ∧
     0 ≤ (c4Engine.submitBatch c4Proposal).2.execution_rate ∧
     (c4Engine.submitBatch c4Proposal).2.execution_rate ≤ 1) :=
  ⟨by simp [c4Proposal],
   by norm_num [c4Engine, c4Proposal, Engine.submitBatch, Engine.runBatch,
     Engine.execOrder, gate, Ledger.apply, Ledger.findPosition, mkReport,
     List.find?, List.filter, tmodeDiff, strAB, strAC, strBC, strBA, strCA,
     strCB],
   batch_report_partition_and_rate c4Engine c4Proposal (by simp [c4Proposal])⟩

/-- C5: a held position whose ticker has no quote entry is still listed by
value(quotes), with its ticker and share count intact, and with
current_value, unrealized_pnl and pnl_percent all absent rather than
zero. -/
theorem missing_quote_reports_absent_fields (l : Ledger) (qs : Quotes)
    (p : Position) (hp : p ∈ l.positions) (hq : qs.latest p.ticker = none) :
    positionView qs p ∈ l.value qs ∧
    (positionView qs p).ticker = p.ticker ∧
    (positionView qs p).shares = p.shares ∧
    (positionView qs p).current_value = none ∧
    (positionView qs p).unrealized_pnl = none ∧
    (positionView qs p).pnl_percent = none ∧
    (l.value qs).length = l.positions.length := by
  have hv : positionView qs p =
      ⟨p.ticker, p.shares, p.average_cost, none, none, none⟩ := by
    unfold positionView
    rw [hq]
  exact ⟨List.mem_map_of_mem _ hp, by rw [hv], by rw [hv], by rw [hv],
    by rw [hv], by rw [hv], List.length_map _ _⟩

/-- C5 witness: the concrete unquoted position "AAA" is still listed, with
absent valuation fields, while the quoted "BBB" position gets values. -/
theorem missing_quote_reports_absent_fields_witness :
    ((⟨"AAA", 10, 100, some 90⟩ : Position) ∈ c5Ledger.positions ∧
      c5Quotes.latest "AAA" = none) ∧
    (positionView c5Quotes ⟨"AAA", 10, 100, some 90⟩ ∈ c5Ledger.value c5Quotes ∧
     (positionView c5Quotes ⟨"AAA", 10, 100, some 90⟩).ticker = "AAA" ∧
     (positionView c5Quotes ⟨"AAA", 10, 100, some 90⟩).shares = 10 ∧
     (positionView c5Quotes ⟨"AAA", 10, 100, some 90⟩).current_value = none ∧
     (positionView c5Quotes ⟨"AAA", 10, 100, some 90⟩).unrealized_pnl = none ∧
     (positionView c5Quotes ⟨"AAA", 10, 100, some 90⟩).pnl_percent = none ∧
     (c5Ledger.value c5Quotes).length = c5Ledger.positions.length) ∧
    (positionView c5Quotes ⟨"BBB", 4, 50, none⟩).current_value = some 240 :=
  have hp : (⟨"AAA", 10, 100, some 90⟩ : Position) ∈ c5Ledger.positions := by
    unfold c5Ledger
    exact List.mem_cons_self _ _
  have hq : c5Quotes.latest "AAA" = none := by
    norm_num [Quotes.latest, c5Quotes, List.find?, strBA]
  have h := missing_quote_reports_absent_fields c5Ledger c5Quotes
    ⟨"AAA", 10, 100, some 90⟩ hp hq
  ⟨⟨hp, hq⟩, h,
   by norm_num [positionView, Quotes.latest, c5Quotes, List.find?]⟩

/-- Replacing every record of a date by a fixed record of that same date
commutes with filtering for that date. -/
lemma filter_map_replace (s : List DailyRecord) (d : Nat) (r : DailyRecord)
    (hr : r.date = d) :
    (s.map (fun t => if t.date = d then r else t)).filter (fun t => t.date = d)
      = (s.filter (fun t => t.date = d)).map (fun _ => r) := by
  induction s with
  | nil => rfl
  | cons a rest ih =>
    by_cases ha : a.date = d
    · simp [ha, hr, ih]
    · simp [ha, ih]

/-- On a store holding at most one record for a date, snapshot leaves
exactly the freshly computed record for that date. -/
lemma filter_snapshot (s : List DailyRecord) (d : Nat) (l : Ledger)
    (qs : Quotes) (hs : (s.filter (fun r => r.date = d)).length ≤ 1) :
    (snapshot s d l qs).filter (fun r => r.date = d) = [mkDailyRecord d l qs] := by
  unfold snapshot
  by_cases hany : s.any (fun r => r.date = d)
  · rw [if_pos hany, filter_map_replace s d _ rfl]
    have hne : s.filter (fun r => r.date = d) ≠ [] := by
      rcases List.any_eq_true.mp hany with ⟨x, hx, hpx⟩
      intro hnil
      have hmem : x ∈ s.filter (fun r => r.date = d) :=
        List.mem_filter.mpr ⟨hx, hpx⟩
      rw [hnil] at hmem
      exact absurd hmem (List.not_mem_nil x)
    have hlen1 : (s.filter (fun r => r.date = d)).length = 1 :=
      le_antisymm hs (List.length_pos.mpr hne)
    rcases List.length_eq_one.mp hlen1 with ⟨x, hx⟩
    rw [hx]
    rfl
  · rw [if_neg hany, List.filter_append]
    have hnil : s.filter (fun r => r.date = d) = [] := by
      rw [List.filter_eq_nil_iff]
      intro a ha
      exact List.any_eq_false.mp ((Bool.not_eq_true _).mp hany) a ha
    rw [hnil]
    simp [mkDailyRecord]

/-- C6: snapshot stores a record with total_equity = cash plus the summed
position values, keyed by the date, and a second snapshot for the same
date overwrites the first: exactly one record for that date remains,
holding the later call's values. -/
theorem snapshot_upsert_same_date (s : List DailyRecord) (d : Nat)
    (l1 l2 : Ledger) (q1 q2 : Quotes)
    (hs : (s.filter (fun r => r.date = d)).length ≤ 1) :
    (mkDailyRecord d l2 q2).total_equity = l2.cash + l2.portfolioValue q2 ∧
    (mkDailyRecord d l2 q2).date = d ∧
    (snapshot s d l1 q1).filter (fun r => r.date = d) =
      [mkDailyRecord d l1 q1] ∧
    (snapshot (snapshot s d l1 q1) d l2 q2).filter (fun r => r.date = d) =
      [mkDailyRecord d l2 q2] ∧
    ((snapshot (snapshot s d l1 q1) d l2 q2).filter
      (fun r => r.date = d)).length = 1 := by
  have h1 := filter_snapshot s d l1 q1 hs
  have h2 := filter_snapshot (snapshot s d l1 q1) d l2 q2 (by rw [h1]; exact le_refl 1)
  exact ⟨rfl, rfl, h1, h2, by rw [h2]; rfl⟩

/-- C6 witness: two same-day snapshots on the concrete store leave exactly
the later record for day 5, whose total_equity is cash 300 plus portfolio
value 880. -/
theorem snapshot_upsert_same_date_witness :
    (c6Store.filter (fun r => r.date = 5)).length ≤ 1 ∧
    ((mkDailyRecord 5 c6Ledger2 c6Quotes).total_equity =
        c6Ledger2.cash + c6Ledger2.portfolioValue c6Quotes ∧
      (mkDailyRecord 5 c6Ledger2 c6Quotes).date = 5 ∧
      (snapshot c6Store 5 c6Ledger1 c6Quotes).filter (fun r => r.date = 5) =
        [mkDailyRecord 5 c6Ledger1 c6Quotes] ∧
      (snapshot (snapshot c6Store 5 c6Ledger1 c6Quotes) 5 c6Ledger2 c6Quotes).filter
        (fun r => r.date = 5) = [mkDailyRecord 5 c6Ledger2 c6Quotes] ∧
      ((snapshot (snapshot c6Store 5 c6Ledger1 c6Quotes) 5 c6Ledger2 c6Quotes).filter
        (fun r => r.date = 5)).length = 1) ∧
    mkDailyRecord 5 c6Ledger2 c6Quotes = ⟨5, 1180, 300, 880⟩ :=
  ⟨by decide,
   snapshot_upsert_same_date c6Store 5 c6Ledger1 c6Ledger2 c6Quotes c6Quotes
     (by decide),
   by norm_num [mkDailyRecord, Ledger.portfolioValue, Ledger.value,
     positionView, Quotes.latest, c6Ledger2, c6Quotes, List.find?]⟩

/-- C7 counterexample: the status record the repository declares
(TradingEngineStatus, App.tsx lines 18-26) does not carry the field set
{engine_state, halted, mode, check_interval, market_hours} claimed for
status(): halted, mode and engine_state are absent from it, while
is_running and cached_portfolio are present but unclaimed. -/
theorem status_fields_counterexample :
    ("halted" ∈ specStatusFields ∧ "halted" ∉ tradingEngineStatusFields) ∧
    ("mode" ∈ specStatusFields ∧ "mode" ∉ tradingEngineStatusFields) ∧
    ("engine_state" ∈ specStatusFields ∧
      "engine_state" ∉ tradingEngineStatusFields) ∧
    ("is_running" ∈ tradingEngineStatusFields ∧
      "is_running" ∉ specStatusFields) ∧
    ("cached_portfolio" ∈ tradingEngineStatusFields ∧
      "cached_portfolio" ∉ specStatusFields) ∧
    tradingEngineStatusFields ≠ specStatusFields := by decide

/-- C7 amended: the status record contains exactly the four fields
is_running, check_interval, market_hours and cached_portfolio; the run
state is observable through it as is_running, while the trading mode and
the daily-limit state are observable only through the separate trading
settings record (trading_mode, daily_trade_count, daily_limit_reached)
and no halted field is exposed by either record. -/
theorem status_fields_amended :
    tradingEngineStatusFields.length = 4 ∧
    "is_running" ∈ tradingEngineStatusFields ∧
    "check_interval" ∈ tradingEngineStatusFields ∧
    "market_hours" ∈ tradingEngineStatusFields ∧
    "cached_portfolio" ∈ tradingEngineStatusFields ∧
    "halted" ∉ tradingEngineStatusFields ∧
    "mode" ∉ tradingEngineStatusFields ∧
    "engine_state" ∉ tradingEngineStatusFields ∧
    "trading_mode" ∈ tradingSettingsFields ∧
    "daily_trade_count" ∈ tradingSettingsFields ∧
    "daily_limit_reached" ∈ tradingSettingsFields ∧
    "halted" ∉ tradingSettingsFields := by decide

/-- C8: daily_performance(limit) returns at most `limit` records, sorted
most-recent-first by date (any record after the head is no later than the
head), and every returned record comes from the store. -/
theorem daily_performance_most_recent_first (s : List DailyRecord) (n : Nat) :
    (dailyPerformance s n).length ≤ n ∧
    List.Sorted moreRecent (dailyPerformance s n) ∧
    (∀ a rest, dailyPerformance s n = a :: rest → ∀ b ∈ rest, b.date ≤ a.date) ∧
    (∀ r ∈ dailyPerformance s n, r ∈ s) := by
  have hsorted : List.Sorted moreRecent (List.insertionSort moreRecent s) :=
    List.sorted_insertionSort moreRecent s
  have htake : List.Sorted moreRecent (dailyPerformance s n) := by
    unfold dailyPerformance
    exact List.Pairwise.sublist (List.take_sublist n _) hsorted
  refine ⟨?_, htake, ?_, ?_⟩
  · unfold dailyPerformance
    rw [List.length_take]
    exact min_le_left _ _
  · intro a rest heq b hb
    rw [heq] at htake
    exact List.rel_of_sorted_cons htake b hb
  · intro r hr
    unfold dailyPerformance at hr
    exact ((List.perm_insertionSort moreRecent s).mem_iff).mp
      (List.take_subset n _ hr)

/-- C8 witness: on the concrete unsorted three-day store, a limit of 2
returns the day-7 record first, then the day-5 record. -/
theorem daily_performance_most_recent_first_witness :
    ((dailyPerformance c8Store 2).length ≤ 2 ∧
     List.Sorted moreRecent (dailyPerformance c8Store 2) ∧
     (∀ a rest, dailyPerformance c8Store 2 = a :: rest →
        ∀ b ∈ rest, b.date ≤ a.date) ∧
     (∀ r ∈ dailyPerformance c8Store 2, r ∈ c8Store)) ∧
    dailyPerformance c8Store 2 =
      [⟨7, 1200, 200, 1000⟩, ⟨5, 1100, 150, 950⟩] :=
  ⟨daily_performance_most_recent_first c8Store 2,
   by norm_num [dailyPerformance, c8Store, List.insertionSort,
     List.orderedInsert, moreRecent]⟩

/-- C9: every order the boundary validator accepts is returned unchanged
and has positive shares, positive price, a nonempty ticker, a stop_loss
only when its action is BUY (never on a SELL), and a confidence only when
its source is ADVISOR. -/
theorem valid_order_shape (o o2 : Order) (h : validateOrder o = .ok o2) :
    o2 = o ∧ 0 < o.shares ∧ 0 < o.price ∧ o.ticker ≠ "" ∧
    (o.stop_loss ≠ none → o.action = .BUY) ∧
    (o.action = .SELL → o.stop_loss = none) ∧
    (o.confidence ≠ none → o.source = .ADVISOR) := by
  unfold validateOrder at h
  split_ifs at h with h1 h2 h3 h4 h5
  injection h with ho
  have hsl : o.stop_loss ≠ none → o.action = .BUY := by
    intro hne
    by_contra hact
    exact h4 ⟨Option.isSome_iff_ne_none.mpr hne, hact⟩
  have hsell : o.action = .SELL → o.stop_loss = none := by
    intro hs
    by_contra hne
    have hb := hsl hne
    rw [hs] at hb
    exact Action.noConfusion hb
  have hconf : o.confidence ≠ none → o.source = .ADVISOR := by
    intro hne
    by_contra hsrc
    exact h5 ⟨Option.isSome_iff_ne_none.mpr hne, hsrc⟩
  exact ⟨ho.symm, not_le.mp h2, not_le.mp h3, h1, hsl, hsell, hconf⟩

/-- C9 witness: the concrete advisor BUY order with a stop loss and a
confidence passes validation and exhibits every shape property. -/
theorem valid_order_shape_witness :
    validateOrder c9Order = .ok c9Order ∧
    (c9Order = c9Order ∧ 0 < c9Order.shares ∧ 0 < c9Order.price ∧
     c9Order.ticker ≠ "" ∧
     (c9Order.stop_loss ≠ none → c9Order.action = .BUY) ∧
     (c9Order.action = .SELL → c9Order.stop_loss = none) ∧
     (c9Order.confidence ≠ none → c9Order.source = .ADVISOR)) :=
  have hv : validateOrder c9Order = .ok c9Order := by
    unfold validateOrder c9Order
    rw [if_neg (by decide), if_neg (by norm_num), if_neg (by norm_num),
      if_neg (by decide), if_neg (by decide)]
  ⟨hv, valid_order_shape c9Order c9Order hv⟩

/-- Folding the client's value accumulation from any start equals the
start plus the summed per-row contributions. -/
lemma foldl_add_currentValue (init : ℚ) (ps : List PortfolioSummary) :
    ps.foldl (fun s p => s + p.current_value.getD 0) init =
      init + (ps.map (fun p => p.current_value.getD 0)).sum := by
  induction ps generalizing init with
  | nil => simp
  | cons a rest ih => simp [ih, add_assoc]

/-- C10: in the client's computation a row with null current_value
contributes exactly zero: dropping it changes neither the displayed
portfolio value nor the total equity, and the total equity is the cash
plus the sum of present current values. -/
theorem client_null_value_contributes_zero (cash : ℚ)
    (l r : List PortfolioSummary) (p : PortfolioSummary)
    (hp : p.current_value = none) :
    clientTotalEquity cash (l ++ p :: r) = clientTotalEquity cash (l ++ r) ∧
    clientPortfolioValue (l ++ p :: r) = clientPortfolioValue (l ++ r) ∧
    (∀ ps : List PortfolioSummary,
      clientTotalEquity cash ps =
        cash + (ps.map (fun q => q.current_value.getD 0)).sum) := by
  have hval : ∀ ps : List PortfolioSummary,
      clientPortfolioValue ps = (ps.map (fun q => q.current_value.getD 0)).sum := by
    intro ps
    unfold clientPortfolioValue
    rw [foldl_add_currentValue 0 ps, zero_add]
  have h2 : clientPortfolioValue (l ++ p :: r) = clientPortfolioValue (l ++ r) := by
    rw [hval, hval]
    simp [hp]
  exact ⟨by unfold clientTotalEquity; rw [h2], h2,
    fun ps => by unfold clientTotalEquity; rw [hval]⟩

/-- C10 witness: with cash 500 and the three concrete rows, the unquoted
middle row contributes zero: the totals match the two-row portfolio and
equal 1660 = 500 + 1100 + 0 + 60. -/
theorem client_null_value_contributes_zero_witness :
    c10RowB.current_value = none ∧
    (clientTotalEquity 500 ([c10RowA] ++ c10RowB :: [c10RowC]) =
       clientTotalEquity 500 ([c10RowA] ++ [c10RowC]) ∧
     clientPortfolioValue ([c10RowA] ++ c10RowB :: [c10RowC]) =
       clientPortfolioValue ([c10RowA] ++ [c10RowC]) ∧
     (∀ ps : List PortfolioSummary,
       clientTotalEquity 500 ps =
         500 + (ps.map (fun q => q.current_value.getD 0)).sum)) ∧
    clientTotalEquity 500 [c10RowA, c10RowB, c10RowC] = 1660 :=
  ⟨rfl,
   client_null_value_contributes_zero 500 [c10RowA] [c10RowC] c10RowB rfl,
   by norm_num [clientTotalEquity, clientPortfolioValue, c10RowA, c10RowB,
     c10RowC, List.foldl]⟩

end QuantProto
